import Mathlib

set_option maxHeartbeats 1000000

/-!
Verification development for the x402 Solana payment-verification core:
signature-format validation, the replay cache, the RPC manager's round-robin
endpoint selection and health map, the on-chain transfer extraction and
business-rule checks, dynamic pricing, and the metrics monitor.  Every
definition is a shallow embedding of the corresponding TypeScript function;
JavaScript numbers are modelled as rationals, `Date.now()` is passed in
explicitly as a rational millisecond clock, and the asynchronous RPC calls
are modelled by an oracle giving the outcome of each attempt.
-/

/-- JavaScript `Math.round`: round half toward positive infinity, that is
the floor of `q + 1/2`, written out on numerator and denominator so that it
evaluates by reduction. -/
def jsRound (q : ℚ) : ℤ := (q + 1/2).num / ((q + 1/2).den : ℤ)

theorem jsRound_eq_floor (q : ℚ) : jsRound q = ⌊q + 1/2⌋ := by
  rw [jsRound, Rat.floor_def]

instance {ε α : Type} [DecidableEq ε] [DecidableEq α] : DecidableEq (Except ε α)
  | Except.ok x, Except.ok y =>
    if h : x = y then Decidable.isTrue (by rw [h]) else Decidable.isFalse (by simp [h])
  | Except.ok _, Except.error _ => Decidable.isFalse (by simp)
  | Except.error _, Except.ok _ => Decidable.isFalse (by simp)
  | Except.error e, Except.error f =>
    if h : e = f then Decidable.isTrue (by rw [h]) else Decidable.isFalse (by simp [h])

/-- `PaymentService.roundToMicroUSDC`: `Math.round(amount * 1_000_000) / 1_000_000`. -/
def roundToMicroUSDC (amount : ℚ) : ℚ := (jsRound (amount * 1000000) : ℚ) / 1000000

/-- Character class of the regex `[1-9A-HJ-NP-Za-km-z]` used by `isValidSignature`. -/
def isBase58Char (c : Char) : Bool :=
  ('1' ≤ c && c ≤ '9') || ('A' ≤ c && c ≤ 'H') || ('J' ≤ c && c ≤ 'N') ||
  ('P' ≤ c && c ≤ 'Z') || ('a' ≤ c && c ≤ 'k') || ('m' ≤ c && c ≤ 'z')

/-- `PaymentService.isValidSignature`: the reference matches
`/^[1-9A-HJ-NP-Za-km-z]{87,88}$/`. -/
def isValidSignature (signature : String) : Bool :=
  (signature.data.length == 87 || signature.data.length == 88) &&
  signature.data.all isBase58Char

/-- `PaymentService.calculatePrice`.  `params.amount || 0` is modelled with the
JavaScript truthiness of `0`; decimal literals of the source are written as
exact rationals. -/
def calculatePrice (toolName : String) (paramsAmount : Option ℚ) : ℚ :=
  if toolName = "executeBet" then
    let betAmount : ℚ :=
      match paramsAmount with
      | Option.some a => if a = 0 then 0 else a
      | Option.none => 0
    roundToMicroUSDC (1/10 + betAmount * (2/100))
  else if toolName = "analyzeMarket" then 5/100
  else if toolName = "getOdds" then 2/100
  else 1/100

/-- Test whether `pat` occurs as a contiguous run inside `s` (JavaScript
`String.prototype.includes`), on character lists. -/
def charsHaveRun : List Char → List Char → Bool
  | _, [] => true
  | [], _ :: _ => false
  | a :: as, b :: bs =>
    (a == b && charsMatchRun as bs) || charsHaveRun as (b :: bs)
where
  charsMatchRun : List Char → List Char → Bool
  | _, [] => true
  | [], _ :: _ => false
  | a :: as, b :: bs => a == b && charsMatchRun as bs

/-- JavaScript `s.includes(pat)`. -/
def strContains (s pat : String) : Bool := charsHaveRun s.data pat.data

/-- Association-list lookup, modelling JavaScript `Map.get`. -/
def alGet {α : Type} : List (String × α) → String → Option α
  | [], _ => Option.none
  | p :: rest, k => if p.1 = k then Option.some p.2 else alGet rest k

/-- Association-list update, modelling JavaScript `Map.set` (replace the
existing binding or append a new one). -/
def alSet {α : Type} : List (String × α) → String → α → List (String × α)
  | [], k, v => [(k, v)]
  | p :: rest, k, v => if p.1 = k then (k, v) :: rest else p :: alSet rest k v

/-- Association-list removal, modelling JavaScript `Map.delete`. -/
def alRemove {α : Type} : List (String × α) → String → List (String × α)
  | [], _ => []
  | p :: rest, k => if p.1 = k then rest else p :: alRemove rest k

theorem alGet_alSet {α : Type} (l : List (String × α)) (k k' : String) (v : α) :
    alGet (alSet l k v) k' = if k' = k then Option.some v else alGet l k' := by
  induction l with
  | nil =>
    by_cases h : k = k'
    · simp [alSet, alGet, h]
    · simp [alSet, alGet, h, Ne.symm h]
  | cons p rest ih =>
    by_cases hp : p.1 = k
    · by_cases h : k = k'
      · simp [alSet, alGet, hp, h]
      · simp [alSet, alGet, hp, h, Ne.symm h]
    · by_cases h' : p.1 = k'
      · have hk : ¬ k' = k := fun hh => hp (h'.trans hh)
        simp [alSet, alGet, hp, h', hk]
      · simp [alSet, alGet, hp, h', ih]

theorem alGet_alRemove_ne {α : Type} (l : List (String × α)) (k k' : String)
    (h : k' ≠ k) : alGet (alRemove l k) k' = alGet l k' := by
  induction l with
  | nil => simp [alRemove]
  | cons p rest ih =>
    by_cases hp : p.1 = k
    · simp [alRemove, alGet, hp, Ne.symm h]
    · simp [alRemove, alGet, hp, ih]

/-! ## Data model -/

/-- `PaymentErrorCode` from `errors/payment-errors.ts`. -/
inductive PaymentErrorCode where
  | PAYMENT_REQUIRED
  | INVALID_SIGNATURE
  | TRANSACTION_NOT_FOUND
  | INSUFFICIENT_AMOUNT
  | WRONG_RECIPIENT
  | WRONG_TOKEN
  | EXPIRED_PAYMENT
  | REPLAY_ATTACK
  | RPC_ERROR
  | VERIFICATION_TIMEOUT
deriving DecidableEq, Repr

/-- Structured contents of the `details` object of each `PaymentError`
factory; the numbers the source interpolates into strings are kept as
rationals. -/
inductive ErrDetails where
  | noDetails
  | sigDetails (signature : String)
  | notFoundDetails (signature : String)
  | insufficientDetails (expected actual shortfall : ℚ)
  | recipientDetails (expected actual : String)
  | expiredDetails (age : ℤ) (maxAge : ℚ)
  | replayDetails (signature originalTool : String)
  | tokenDetails (expectedMint : String)
  | rpcDetails (message : String)
deriving DecidableEq, Repr

/-- `PaymentError` (code, message, details). -/
structure PaymentError where
  code : PaymentErrorCode
  message : String
  details : ErrDetails
deriving DecidableEq, Repr

def createInvalidSignatureError (signature : String) : PaymentError :=
  ⟨PaymentErrorCode.INVALID_SIGNATURE, "Invalid transaction signature format",
   ErrDetails.sigDetails signature⟩

def createTransactionNotFoundError (signature : String) : PaymentError :=
  ⟨PaymentErrorCode.TRANSACTION_NOT_FOUND, "Transaction not found on Solana",
   ErrDetails.notFoundDetails signature⟩

def createInsufficientAmountError (expected actual : ℚ) : PaymentError :=
  ⟨PaymentErrorCode.INSUFFICIENT_AMOUNT, "Insufficient payment amount",
   ErrDetails.insufficientDetails expected actual (expected - actual)⟩

def createWrongRecipientError (expected actual : String) : PaymentError :=
  ⟨PaymentErrorCode.WRONG_RECIPIENT, "Payment sent to wrong recipient",
   ErrDetails.recipientDetails expected actual⟩

def createExpiredPaymentError (age maxAge : ℚ) : PaymentError :=
  ⟨PaymentErrorCode.EXPIRED_PAYMENT, "Payment transaction is too old",
   ErrDetails.expiredDetails (jsRound age) maxAge⟩

def createReplayAttackError (signature originalTool : String) : PaymentError :=
  ⟨PaymentErrorCode.REPLAY_ATTACK, "Payment signature already used",
   ErrDetails.replayDetails signature originalTool⟩

/-- The inline `PaymentError` thrown when the fetched transaction has no
block time (code `TRANSACTION_NOT_FOUND`, no details object). -/
def noBlockTimeError : PaymentError :=
  ⟨PaymentErrorCode.TRANSACTION_NOT_FOUND, "Transaction does not have a block time",
   ErrDetails.noDetails⟩

/-- The inline `PaymentError` thrown when no USDC transfer is found
(code `WRONG_TOKEN`). -/
def wrongTokenError (expectedMint : String) : PaymentError :=
  ⟨PaymentErrorCode.WRONG_TOKEN, "No USDC transfer found in transaction",
   ErrDetails.tokenDetails expectedMint⟩

/-- One pre/post token-balance snapshot entry of the fetched transaction's
`meta` (`accountIndex`, `mint`, `owner`, `uiTokenAmount.uiAmount`). -/
structure TokenBalance where
  accountIndex : ℕ
  mint : String
  owner : String
  uiAmount : ℚ
deriving DecidableEq, Repr

/-- The `meta` object of a fetched transaction. -/
structure TxMeta where
  preTokenBalances : List TokenBalance
  postTokenBalances : List TokenBalance
deriving DecidableEq, Repr

/-- A fetched on-chain transaction as consumed by `verifyPayment`:
`blockTime` (seconds) and `meta`. -/
structure ChainTx where
  blockTime : Option ℤ
  meta : Option TxMeta
deriving DecidableEq, Repr

/-- The record returned by `extractUSDCTransfer`. -/
structure USDCTransfer where
  amount : ℚ
  recipient : String
  sender : String
deriving DecidableEq, Repr

/-- `CacheEntry` from `cache/payment-cache.ts`; `params` is kept opaque. -/
structure CacheEntry where
  toolName : String
  amount : ℚ
  timestamp : ℚ
  verified : Bool
  params : Option String
deriving DecidableEq, Repr

/-- A stored item of the in-memory cache backend: the entry plus its
absolute expiry time in milliseconds. -/
structure CacheItem where
  entry : CacheEntry
  expiresAt : ℚ
deriving DecidableEq, Repr

/-- The `transactionDetails` part of a `VerificationResult`. -/
structure TxDetails where
  signature : String
  amount : ℚ
  sender : String
  timestamp : ℤ
deriving DecidableEq, Repr

/-- `VerificationResult` from `payment.service.ts`. -/
structure VerificationResult where
  valid : Bool
  cached : Option Bool
  transactionDetails : Option TxDetails
deriving DecidableEq, Repr

/-- `PaymentMetrics` from `monitoring/payment-monitor.ts`. -/
structure PaymentMetrics where
  totalVerifications : ℕ
  successfulVerifications : ℕ
  failedVerifications : ℕ
  cacheHits : ℕ
  cacheMisses : ℕ
  averageVerificationTime : ℚ
  cacheHitRate : ℚ
  successRate : ℚ
  rpcErrors : ℕ
  totalAmount : ℚ
deriving DecidableEq, Repr

/-- `VerificationEvent` from `monitoring/payment-monitor.ts`. -/
structure VerificationEvent where
  timestamp : ℚ
  success : Bool
  duration : ℚ
  fromCache : Bool
  amount : Option ℚ
  errorCode : Option String
deriving DecidableEq, Repr

/-- The `PaymentMonitor`'s mutable state. -/
structure MonitorState where
  metrics : PaymentMetrics
  recentEvents : List VerificationEvent
deriving DecidableEq, Repr

/-- The `RPCManager`'s mutable state: the endpoint list, the round-robin
cursor and the per-endpoint health map. -/
structure RpcState where
  endpoints : List String
  currentIndex : ℕ
  health : List (String × Bool)
deriving DecidableEq, Repr

/-- The whole `PaymentService` state: replay cache, monitor and RPC manager. -/
structure ServiceState where
  cache : List (String × CacheItem)
  monitor : MonitorState
  rpc : RpcState
deriving DecidableEq, Repr

/-- Configuration consumed by `verifyPayment` (from `payment.config.ts` and
the network config): defaults are `maxTransactionAge = 300`,
`retryAttempts = 3`, `ttl = 3600`. -/
structure Config where
  maxTransactionAge : ℚ
  retryAttempts : ℕ
  ttl : ℚ
  usdcMint : String
  recipientWallet : String
deriving Repr

/-- Outcome of one scheduled RPC attempt: `getTransaction` either resolves
(possibly to `null`) or rejects with an error message. -/
inductive RpcAttemptResult where
  | success (tx : Option ChainTx)
  | failure (message : String)
deriving DecidableEq, Repr

/-- One `verifyPayment` invocation: its arguments, the wall clock at the
call, and the oracle giving the outcome of the i-th RPC attempt made during
this call. -/
structure CallInput where
  signature : String
  expectedAmount : ℚ
  toolName : String
  params : Option String
  now : ℚ
  env : ℕ → RpcAttemptResult

/-- Result of one modelled `verifyPayment` call: the returned value or
thrown `PaymentError`, the post-state, and how many RPC attempts were
scheduled. -/
structure VPOut where
  outcome : Except PaymentError VerificationResult
  state : ServiceState
  rpcCalls : ℕ

/-! ## Replay cache (in-memory backend) -/

/-- Value returned by `MemoryCache.get`: the entry, unless absent or past
its expiry time (`Date.now() > item.expiresAt`). -/
def cacheGetEntry (cache : List (String × CacheItem)) (signature : String)
    (now : ℚ) : Option CacheEntry :=
  match alGet cache signature with
  | Option.none => Option.none
  | Option.some item =>
    if now > item.expiresAt then Option.none else Option.some item.entry

/-- Map left behind by `MemoryCache.get` (an expired entry is deleted). -/
def cacheGetMap (cache : List (String × CacheItem)) (signature : String)
    (now : ℚ) : List (String × CacheItem) :=
  match alGet cache signature with
  | Option.none => cache
  | Option.some item =>
    if now > item.expiresAt then alRemove cache signature else cache

/-- `MemoryCache.set`: store the entry with `expiresAt = Date.now() + ttl * 1000`. -/
def cacheSet (cache : List (String × CacheItem)) (signature : String)
    (entry : CacheEntry) (now ttl : ℚ) : List (String × CacheItem) :=
  alSet cache signature ⟨entry, now + ttl * 1000⟩

/-! ## Monitor -/

/-- `PaymentMonitor.updateCalculatedMetrics`. -/
def updateCalculatedMetrics (m : PaymentMetrics) (events : List VerificationEvent) :
    PaymentMetrics :=
  let m := if 0 < m.totalVerifications then
    { m with successRate := (m.successfulVerifications : ℚ) / (m.totalVerifications : ℚ) }
    else m
  let m := if 0 < m.totalVerifications then
    { m with cacheHitRate := (m.cacheHits : ℚ) / (m.totalVerifications : ℚ) }
    else m
  if 0 < events.length then
    { m with averageVerificationTime :=
        (events.foldl (fun s e => s + e.duration) 0) / (events.length : ℚ) }
  else m

/-- `PaymentMonitor.recordVerification`.  `if (amount)` uses JavaScript
truthiness, so an absent amount (and a zero amount) is not added. -/
def recordVerification (mon : MonitorState) (ts : ℚ) (success : Bool)
    (duration : ℚ) (fromCache : Bool) (amount : Option ℚ)
    (errorCode : Option String) : MonitorState :=
  let m := mon.metrics
  let m := { m with totalVerifications := m.totalVerifications + 1 }
  let m :=
    if success then
      let m := { m with successfulVerifications := m.successfulVerifications + 1 }
      match amount with
      | Option.some a => if a = 0 then m else { m with totalAmount := m.totalAmount + a }
      | Option.none => m
    else { m with failedVerifications := m.failedVerifications + 1 }
  let m :=
    if fromCache then { m with cacheHits := m.cacheHits + 1 }
    else { m with cacheMisses := m.cacheMisses + 1 }
  let events := mon.recentEvents ++ [⟨ts, success, duration, fromCache, amount, errorCode⟩]
  let events := if 1000 < events.length then events.drop (events.length - 1000) else events
  ⟨updateCalculatedMetrics m events, events⟩

/-- `PaymentMonitor.getErrorBreakdown`: count error codes of failed events. -/
def getErrorBreakdown (events : List VerificationEvent) : List (String × ℕ) :=
  events.foldl
    (fun acc e =>
      match e.errorCode with
      | Option.some code =>
        if e.success then acc
        else alSet acc code ((alGet acc code).getD 0 + 1)
      | Option.none => acc)
    []

/-! ## RPC manager -/

/-- Health-map read: `this.healthStatus.get(endpoint)` with JavaScript
falsiness of `undefined`. -/
def healthGet (health : List (String × Bool)) (endpoint : String) : Bool :=
  (alGet health endpoint).getD false

/-- The transient-error test of `RPCManager.schedule`'s catch block. -/
def isTransientError (message : String) : Bool :=
  strContains message "429" || strContains message "rate limit" ||
  strContains message "timeout"

/-- The `while` loop of `RPCManager.getConnection`: walk the round-robin
cursor, returning the first healthy endpoint, or the one reached on the
last allowed attempt, falling back to the first endpoint.  The loop guard
`attempts < connections.length` is expressed through the structurally
decreasing `fuel = connections.length - attempts`. -/
def getConnLoop (conns : List String) (health : List (String × Bool)) :
    ℕ → ℕ → ℕ → String × ℕ
  | 0, idx, _ => (conns.getD 0 "", idx)
  | fuel + 1, idx, attempts =>
    let conn := conns.getD idx ""
    let idx' := (idx + 1) % conns.length
    if healthGet health conn || attempts == conns.length - 1 then (conn, idx')
    else getConnLoop conns health fuel idx' (attempts + 1)

/-- `RPCManager.getConnection`: selected endpoint and updated cursor. -/
def getConnection (st : RpcState) : String × ℕ :=
  getConnLoop st.endpoints st.health st.endpoints.length st.currentIndex 0

/-- `RPCManager.schedule`: pick a connection, run the call (outcome given by
the oracle), and update the endpoint's health (success marks healthy;
a transient error marks unhealthy). -/
def scheduleStep (st : RpcState) (res : RpcAttemptResult) : RpcState × RpcAttemptResult :=
  let sel := getConnection st
  match res with
  | RpcAttemptResult.success tx =>
    (⟨st.endpoints, sel.2, alSet st.health sel.1 true⟩, RpcAttemptResult.success tx)
  | RpcAttemptResult.failure msg =>
    if isTransientError msg then
      (⟨st.endpoints, sel.2, alSet st.health sel.1 false⟩, RpcAttemptResult.failure msg)
    else (⟨st.endpoints, sel.2, st.health⟩, RpcAttemptResult.failure msg)

/-- The retry loop of `PaymentService.verifyTransactionWithRetry`: up to
`maxRetries` scheduled attempts; a resolved transaction is returned, a
`null` result or a thrown error is retried, and exhaustion throws
`createTransactionNotFoundError` (the caught `lastError` is never used). -/
def verifyTxRetryAux (signature : String) (env : ℕ → RpcAttemptResult) :
    ℕ → ℕ → RpcState → ℕ → Except PaymentError ChainTx × RpcState × ℕ
  | 0, _, st, calls => (Except.error (createTransactionNotFoundError signature), st, calls)
  | fuel + 1, i, st, calls =>
    let step := scheduleStep st (env i)
    match step.2 with
    | RpcAttemptResult.success (Option.some tx) => (Except.ok tx, step.1, calls + 1)
    | RpcAttemptResult.success Option.none =>
      verifyTxRetryAux signature env fuel (i + 1) step.1 (calls + 1)
    | RpcAttemptResult.failure _ =>
      verifyTxRetryAux signature env fuel (i + 1) step.1 (calls + 1)

/-- `PaymentService.verifyTransactionWithRetry`: the `for` loop over at most
`maxRetries` attempts (the loop guard `i < maxRetries` is expressed through
the structurally decreasing `fuel = maxRetries - i`). -/
def verifyTransactionWithRetry (signature : String) (env : ℕ → RpcAttemptResult)
    (maxRetries : ℕ) (st : RpcState) : Except PaymentError ChainTx × RpcState × ℕ :=
  verifyTxRetryAux signature env maxRetries 0 st 0

/-! ## Transfer extraction -/

/-- Inner loop of `extractUSDCTransfer`: find the owner of the first USDC
pre-balance whose matching post-balance decreased; default `"unknown"`. -/
def findSender (usdcMint : String) (posts : List TokenBalance) :
    List TokenBalance → String
  | [] => "unknown"
  | p :: rest =>
    if p.mint ≠ usdcMint then findSender usdcMint posts rest
    else
      match posts.find? (fun q => q.accountIndex == p.accountIndex) with
      | Option.none => findSender usdcMint posts rest
      | Option.some q =>
        if q.uiAmount - p.uiAmount < 0 then p.owner
        else findSender usdcMint posts rest

/-- Outer loop of `extractUSDCTransfer`: scan post balances for the first
USDC account whose balance increased. -/
def scanPostBalances (usdcMint : String) (pres allPosts : List TokenBalance) :
    List TokenBalance → Option USDCTransfer
  | [] => Option.none
  | post :: rest =>
    if post.mint ≠ usdcMint then scanPostBalances usdcMint pres allPosts rest
    else
      let preAmount : ℚ :=
        match pres.find? (fun p => p.accountIndex == post.accountIndex) with
        | Option.some p => p.uiAmount
        | Option.none => 0
      let difference := post.uiAmount - preAmount
      if 0 < difference then
        Option.some ⟨difference, post.owner, findSender usdcMint allPosts pres⟩
      else scanPostBalances usdcMint pres allPosts rest

/-- `PaymentService.extractUSDCTransfer`. -/
def extractUSDCTransfer (usdcMint : String) (tx : ChainTx) : Option USDCTransfer :=
  match tx.meta with
  | Option.none => Option.none
  | Option.some meta =>
    scanPostBalances usdcMint meta.preTokenBalances meta.postTokenBalances
      meta.postTokenBalances

/-! ## Payment service -/

/-- The `try` block of `PaymentService.verifyPayment`, as a state
transformer: returned value or thrown `PaymentError`, post-state, and the
number of RPC attempts scheduled.  The source guards the block time with
`if (!blockTime)`, which by JavaScript falsiness rejects both an absent
block time and a block time of exactly 0. -/
def verifyPaymentTry (cfg : Config) (st : ServiceState) (c : CallInput) :
    Except PaymentError VerificationResult × ServiceState × ℕ :=
  if isValidSignature c.signature then
    let found := cacheGetEntry st.cache c.signature c.now
    let st1 : ServiceState := { st with cache := cacheGetMap st.cache c.signature c.now }
    match found with
    | Option.some entry =>
      if entry.toolName ≠ c.toolName then
        (Except.error (createReplayAttackError c.signature entry.toolName), st1, 0)
      else
        let st2 := { st1 with
          monitor := recordVerification st1.monitor c.now true 0 true Option.none Option.none }
        (Except.ok ⟨true, Option.some true, Option.none⟩, st2, 0)
    | Option.none =>
      let fetched := verifyTransactionWithRetry c.signature c.env cfg.retryAttempts st1.rpc
      let st2 := { st1 with rpc := fetched.2.1 }
      let calls := fetched.2.2
      match fetched.1 with
      | Except.error e => (Except.error e, st2, calls)
      | Except.ok tx =>
        match tx.blockTime with
        | Option.none => (Except.error noBlockTimeError, st2, calls)
        | Option.some blockTime =>
          if blockTime = 0 then (Except.error noBlockTimeError, st2, calls)
          else
            let age : ℚ := c.now / 1000 - (blockTime : ℚ)
            if age > cfg.maxTransactionAge then
              (Except.error (createExpiredPaymentError age cfg.maxTransactionAge), st2, calls)
            else
              match extractUSDCTransfer cfg.usdcMint tx with
              | Option.none => (Except.error (wrongTokenError cfg.usdcMint), st2, calls)
              | Option.some transfer =>
                if transfer.amount < c.expectedAmount - 1/1000000 then
                  (Except.error (createInsufficientAmountError c.expectedAmount transfer.amount),
                   st2, calls)
                else if transfer.recipient ≠ cfg.recipientWallet then
                  (Except.error (createWrongRecipientError cfg.recipientWallet transfer.recipient),
                   st2, calls)
                else
                  let entry : CacheEntry := ⟨c.toolName, transfer.amount, c.now, true, c.params⟩
                  let st3 := { st2 with
                    cache := cacheSet st2.cache c.signature entry c.now cfg.ttl }
                  let st4 := { st3 with
                    monitor := recordVerification st3.monitor c.now true 0 false
                      Option.none Option.none }
                  (Except.ok ⟨true, Option.some false,
                     Option.some ⟨c.signature, transfer.amount, transfer.sender, blockTime⟩⟩,
                   st4, calls)
  else (Except.error (createInvalidSignatureError c.signature), st, 0)

/-- `PaymentService.verifyPayment`: the `try` block plus the `catch`
branch, which records a failed verification and rethrows the typed error
(every error reaching it in this model is already a `PaymentError`). -/
def verifyPayment (cfg : Config) (st : ServiceState) (c : CallInput) : VPOut :=
  match verifyPaymentTry cfg st c with
  | (Except.ok r, st1, calls) => ⟨Except.ok r, st1, calls⟩
  | (Except.error e, st1, calls) =>
    ⟨Except.error e,
     { st1 with
       monitor := recordVerification st1.monitor c.now false 0 false
         Option.none Option.none },
     calls⟩

/-- Fold a sequence of `verifyPayment` calls over the service state. -/
def runCalls (cfg : Config) (st : ServiceState) : List CallInput → ServiceState
  | [] => st
  | c :: cs => runCalls cfg (verifyPayment cfg st c).state cs

/-- Trace of a sequence of `verifyPayment` calls: for each call, the
pre-state, the input and the outcome. -/
def runTrace (cfg : Config) (st : ServiceState) :
    List CallInput → List (ServiceState × CallInput × Except PaymentError VerificationResult)
  | [] => []
  | c :: cs =>
    let r := verifyPayment cfg st c
    (st, c, r.outcome) :: runTrace cfg r.state cs

/-- Fresh metrics of a newly constructed `PaymentMonitor`. -/
def initMetrics : PaymentMetrics := ⟨0, 0, 0, 0, 0, 0, 0, 1, 0, 0⟩

/-- Fresh `RPCManager` state: cursor 0, every endpoint healthy. -/
def initRpcState (endpoints : List String) : RpcState :=
  ⟨endpoints, 0, endpoints.map (fun e => (e, true))⟩

/-- Freshly constructed `PaymentService` state. -/
def initState (endpoints : List String) : ServiceState :=
  ⟨[], ⟨initMetrics, []⟩, initRpcState endpoints⟩

/-! ## Concrete fixtures used by witnesses and counterexamples -/

attribute [local semireducible] Rat.add Rat.mul Rat.sub Rat.inv Rat.ofScientific

/-- A syntactically valid 87-character base58 reference. -/
def sigFix : String := String.mk (List.replicate 87 'A')

/-- Concrete configuration with the source defaults
(`maxTransactionAge = 300`, `retryAttempts = 3`, `ttl = 3600`). -/
def cfgFix : Config := ⟨300, 3, 3600, "USDCmint", "RecipientWallet"⟩

/-- A fetched transaction carrying a fresh block time and a one-USDC
transfer into the configured recipient wallet. -/
def goodTxFix : ChainTx :=
  ⟨Option.some 3601,
   Option.some ⟨[⟨0, "USDCmint", "RecipientWallet", 0⟩],
                [⟨0, "USDCmint", "RecipientWallet", 1⟩]⟩⟩

/-- An RPC oracle that always resolves to `goodTxFix`. -/
def goodEnv : ℕ → RpcAttemptResult :=
  fun _ => RpcAttemptResult.success (Option.some goodTxFix)

/-! ## Claim theorems -/

/-- C8: `calculatePrice("executeBet", {amount: 100})` returns exactly 2.10
(base 0.10 plus 2 percent of the bet amount), and for every `executeBet`
input the result is the round-half-up 6-decimal quantization applied
exactly once, at the end, of `0.10 + 0.02 * amount` (so re-quantizing the
result is the identity). -/
theorem C8_calculatePrice_executeBet :
    calculatePrice "executeBet" (Option.some 100) = 21/10 ∧
    (∀ a : ℚ, calculatePrice "executeBet" (Option.some a) =
      roundToMicroUSDC (1/10 + a * (2/100))) ∧
    (∀ a : ℚ, roundToMicroUSDC (calculatePrice "executeBet" (Option.some a)) =
      calculatePrice "executeBet" (Option.some a)) := by
  have hquant : ∀ a : ℚ, calculatePrice "executeBet" (Option.some a) =
      roundToMicroUSDC (1/10 + a * (2/100)) := by
    intro a
    by_cases h : a = 0 <;> simp [calculatePrice, h]
  have hidem : ∀ x : ℚ, roundToMicroUSDC (roundToMicroUSDC x) = roundToMicroUSDC x := by
    intro x
    have hmul : roundToMicroUSDC x * 1000000 = (jsRound (x * 1000000) : ℚ) := by
      rw [roundToMicroUSDC]
      field_simp
    rw [roundToMicroUSDC, hmul, jsRound_eq_floor]
    have : ⌊(jsRound (x * 1000000) : ℚ) + 1/2⌋ = jsRound (x * 1000000) := by
      rw [Int.floor_int_add]
      norm_num
    rw [this, roundToMicroUSDC]
  refine ⟨by decide, hquant, fun a => ?_⟩
  rw [hquant a, hidem]

/-- C5: for every reference that fails the base58 87-88 character format
check, `verifyPayment` throws `INVALID_SIGNATURE`, schedules zero RPC
attempts, and leaves the replay cache untouched. -/
theorem C5_invalid_format_rejected (cfg : Config) (st : ServiceState) (c : CallInput)
    (h : isValidSignature c.signature = false) :
    (verifyPayment cfg st c).outcome =
      Except.error (createInvalidSignatureError c.signature) ∧
    (verifyPayment cfg st c).rpcCalls = 0 ∧
    (verifyPayment cfg st c).state.cache = st.cache := by
  unfold verifyPayment verifyPaymentTry
  simp [h]

/-- Witness for C5 at the spec scenario `verifyPayment("", 0.05, "analyzeMarket")`. -/
theorem C5_invalid_format_rejected_witness :
    isValidSignature "" = false ∧
    (verifyPayment cfgFix (initState ["e1"])
        ⟨"", 5/100, "analyzeMarket", Option.none, 0, goodEnv⟩).outcome =
      Except.error (createInvalidSignatureError "") ∧
    (verifyPayment cfgFix (initState ["e1"])
        ⟨"", 5/100, "analyzeMarket", Option.none, 0, goodEnv⟩).rpcCalls = 0 := by
  have h := C5_invalid_format_rejected cfgFix (initState ["e1"])
    ⟨"", 5/100, "analyzeMarket", Option.none, 0, goodEnv⟩ (by decide)
  exact ⟨by decide, h.1, h.2.1⟩

/-- Every `Except.ok` result of the `try` block has `valid = true`. -/
theorem verifyPaymentTry_ok_valid (cfg : Config) (st : ServiceState) (c : CallInput)
    (r : VerificationResult) (s : ServiceState) (n : ℕ)
    (h : verifyPaymentTry cfg st c = (Except.ok r, s, n)) : r.valid = true := by
  unfold verifyPaymentTry at h
  dsimp only at h
  repeat' split at h
  all_goals simp_all
  all_goals rw [← h.1]

/-- C9: `verifyPayment` never returns a result with `valid = false`: every
normal return is `valid = true` (failures are thrown as typed
`PaymentError`s instead). -/
theorem C9_valid_never_false (cfg : Config) (st : ServiceState) (c : CallInput)
    (r : VerificationResult)
    (h : (verifyPayment cfg st c).outcome = Except.ok r) : r.valid = true := by
  rcases hE : verifyPaymentTry cfg st c with ⟨out, s, n⟩
  unfold verifyPayment at h
  rw [hE] at h
  cases out with
  | ok r' =>
    simp at h
    exact h ▸ verifyPaymentTry_ok_valid cfg st c r' s n hE
  | error e => simp at h

/-- A fresh `verifyPayment` call against `goodEnv` used by witnesses. -/
def callFix : CallInput :=
  ⟨sigFix, 5/100, "analyzeMarket", Option.none, 0, goodEnv⟩

/-- Witness for C9: a concrete successful verification, whose result is
`valid = true` by the theorem. -/
theorem C9_valid_never_false_witness :
    (verifyPayment cfgFix (initState ["e1"]) callFix).outcome =
      Except.ok ⟨true, Option.some false,
        Option.some ⟨sigFix, 1, "unknown", 3601⟩⟩ ∧
    (⟨true, Option.some false, Option.some ⟨sigFix, 1, "unknown", 3601⟩⟩ :
      VerificationResult).valid = true := by
  have hout : (verifyPayment cfgFix (initState ["e1"]) callFix).outcome =
      Except.ok ⟨true, Option.some false,
        Option.some ⟨sigFix, 1, "unknown", 3601⟩⟩ := by decide
  exact ⟨hout, C9_valid_never_false cfgFix (initState ["e1"]) callFix _ hout⟩

/-- C4: a live cache entry for the same reference and the same toolId
short-circuits: the call returns `valid = true` with `cached = true` and
schedules zero RPC attempts. -/
theorem C4_cache_hit_short_circuits (cfg : Config) (st : ServiceState)
    (c : CallInput) (entry : CacheEntry)
    (hvalid : isValidSignature c.signature = true)
    (hhit : cacheGetEntry st.cache c.signature c.now = Option.some entry)
    (htool : entry.toolName = c.toolName) :
    (verifyPayment cfg st c).outcome =
      Except.ok ⟨true, Option.some true, Option.none⟩ ∧
    (verifyPayment cfg st c).rpcCalls = 0 := by
  unfold verifyPayment verifyPaymentTry
  simp [hvalid, hhit, htool]

/-- Cache state holding a live entry for `sigFix` bound to
`"analyzeMarket"`, as left behind by a prior successful verification. -/
def hitStateFix : ServiceState :=
  ⟨[(sigFix, ⟨⟨"analyzeMarket", 1, 0, true, Option.none⟩, 3600000⟩)],
   ⟨initMetrics, []⟩, initRpcState ["e1"]⟩

/-- Witness for C4: a concrete unexpired same-tool cache hit. -/
theorem C4_cache_hit_short_circuits_witness :
    cacheGetEntry hitStateFix.cache sigFix 5 =
      Option.some ⟨"analyzeMarket", 1, 0, true, Option.none⟩ ∧
    (verifyPayment cfgFix hitStateFix
        ⟨sigFix, 5/100, "analyzeMarket", Option.none, 5, goodEnv⟩).outcome =
      Except.ok ⟨true, Option.some true, Option.none⟩ ∧
    (verifyPayment cfgFix hitStateFix
        ⟨sigFix, 5/100, "analyzeMarket", Option.none, 5, goodEnv⟩).rpcCalls = 0 := by
  have h := C4_cache_hit_short_circuits cfgFix hitStateFix
    ⟨sigFix, 5/100, "analyzeMarket", Option.none, 5, goodEnv⟩
    ⟨"analyzeMarket", 1, 0, true, Option.none⟩ (by decide) (by decide) rfl
  exact ⟨by decide, h.1, h.2⟩

/-- Characterization of the fresh-success path of the `try` block: an
`Except.ok` result with `cached = false` means the transaction was fetched,
a transfer was extracted, the tolerance check passed, and the cache now
binds the reference to this call's tool with the observed amount. -/
theorem verifyPaymentTry_fresh (cfg : Config) (st : ServiceState) (c : CallInput)
    (r : VerificationResult) (s : ServiceState) (n : ℕ)
    (h : verifyPaymentTry cfg st c = (Except.ok r, s, n))
    (hfresh : r.cached = Option.some false) :
    ∃ tx transfer,
      (verifyTransactionWithRetry c.signature c.env cfg.retryAttempts st.rpc).1 =
        Except.ok tx ∧
      extractUSDCTransfer cfg.usdcMint tx = Option.some transfer ∧
      ¬ transfer.amount < c.expectedAmount - 1/1000000 ∧
      s.cache = cacheSet (cacheGetMap st.cache c.signature c.now) c.signature
        ⟨c.toolName, transfer.amount, c.now, true, c.params⟩ c.now cfg.ttl := by
  unfold verifyPaymentTry at h
  dsimp only at h
  repeat' split at h
  all_goals simp_all
  · rw [← h.1] at hfresh
    simp at hfresh
  · rw [← h.2.1]

/-- The returned (or thrown) outcome of `verifyPayment` is the outcome of
its `try` block: the `catch` branch only records metrics. -/
theorem verifyPayment_outcome_eq (cfg : Config) (st : ServiceState) (c : CallInput) :
    (verifyPayment cfg st c).outcome = (verifyPaymentTry cfg st c).1 := by
  unfold verifyPayment
  rcases hE : verifyPaymentTry cfg st c with ⟨out, s, n⟩
  cases out <;> rfl

/-- C3 (amended): every fresh success stores in the cache exactly the
on-chain-observed transferred amount, and that amount is at least
`expectedAmount - tolerance` (tolerance = 1 micro-USDC) — not necessarily
at least `expectedAmount` itself. -/
theorem C3_cached_amount_observed (cfg : Config) (st : ServiceState) (c : CallInput)
    (r : VerificationResult)
    (h : (verifyPayment cfg st c).outcome = Except.ok r)
    (hfresh : r.cached = Option.some false) :
    ∃ transfer : USDCTransfer,
      (∃ tx, (verifyTransactionWithRetry c.signature c.env cfg.retryAttempts st.rpc).1 =
          Except.ok tx ∧
        extractUSDCTransfer cfg.usdcMint tx = Option.some transfer) ∧
      alGet (verifyPayment cfg st c).state.cache c.signature =
        Option.some ⟨⟨c.toolName, transfer.amount, c.now, true, c.params⟩,
          c.now + cfg.ttl * 1000⟩ ∧
      c.expectedAmount - 1/1000000 ≤ transfer.amount := by
  rcases hE : verifyPaymentTry cfg st c with ⟨out, s, n⟩
  unfold verifyPayment at h ⊢
  rw [hE] at h ⊢
  cases out with
  | ok r' =>
    simp at h
    obtain ⟨tx, transfer, h1, h2, h3, h4⟩ :=
      verifyPaymentTry_fresh cfg st c r' s n hE (by rw [h]; exact hfresh)
    refine ⟨transfer, ⟨tx, h1, h2⟩, ?_, not_lt.mp h3⟩
    simp only [h4, cacheSet, alGet_alSet]
    simp
  | error e => simp at h

/-- Transaction transferring 0.049999 USDC, one micro-USDC short of 0.05. -/
def underTxFix : ChainTx :=
  ⟨Option.some 3601,
   Option.some ⟨[⟨0, "USDCmint", "RecipientWallet", 0⟩],
                [⟨0, "USDCmint", "RecipientWallet", 49999/1000000⟩]⟩⟩

/-- Call requiring 0.05 USDC against a 0.049999 USDC transfer. -/
def underCallFix : CallInput :=
  ⟨sigFix, 5/100, "analyzeMarket", Option.none, 0,
   fun _ => RpcAttemptResult.success (Option.some underTxFix)⟩

/-- Counterexample to C3 as stated: a verification of a 0.049999 USDC
transfer against a 0.05 USDC requirement succeeds (tolerance), and the
cached amount is strictly below the amount that was required. -/
theorem C3_cached_amount_observed_counterexample :
    (verifyPayment cfgFix (initState ["e1"]) underCallFix).outcome =
      Except.ok ⟨true, Option.some false,
        Option.some ⟨sigFix, 49999/1000000, "unknown", 3601⟩⟩ ∧
    alGet (verifyPayment cfgFix (initState ["e1"]) underCallFix).state.cache sigFix =
      Option.some ⟨⟨"analyzeMarket", 49999/1000000, 0, true, Option.none⟩, 3600000⟩ ∧
    ¬ (5/100 : ℚ) ≤ 49999/1000000 := by decide

/-- Witness for the amended C3 at a concrete fresh success. -/
theorem C3_cached_amount_observed_witness :
    ∃ transfer : USDCTransfer,
      (∃ tx, (verifyTransactionWithRetry callFix.signature callFix.env
          cfgFix.retryAttempts (initState ["e1"]).rpc).1 = Except.ok tx ∧
        extractUSDCTransfer cfgFix.usdcMint tx = Option.some transfer) ∧
      alGet (verifyPayment cfgFix (initState ["e1"]) callFix).state.cache
          callFix.signature =
        Option.some ⟨⟨callFix.toolName, transfer.amount, callFix.now, true,
          callFix.params⟩, callFix.now + cfgFix.ttl * 1000⟩ ∧
      callFix.expectedAmount - 1/1000000 ≤ transfer.amount :=
  C3_cached_amount_observed cfgFix (initState ["e1"]) callFix
    ⟨true, Option.some false, Option.some ⟨sigFix, 1, "unknown", 3601⟩⟩
    (by decide) rfl

/-- C6: for every verification reaching the amount check (valid format,
cache miss, fetched transaction with a truthy nonzero block time, fresh
age, extracted transfer), an observed transfer of exactly
`expectedAmount - tolerance` passes the check (the call succeeds), while
`expectedAmount - tolerance - 1` micro-USDC fails with
`INSUFFICIENT_AMOUNT` whose details carry the shortfall
`expected - actual`. -/
theorem C6_amount_tolerance_boundary (cfg : Config) (st : ServiceState) (c : CallInput)
    (tx : ChainTx) (blockTime : ℤ) (transfer : USDCTransfer)
    (hvalid : isValidSignature c.signature = true)
    (hmiss : cacheGetEntry st.cache c.signature c.now = Option.none)
    (hfetch : (verifyTransactionWithRetry c.signature c.env cfg.retryAttempts st.rpc).1 =
      Except.ok tx)
    (hbt : tx.blockTime = Option.some blockTime)
    (hbz : blockTime ≠ 0)
    (hage : ¬ c.now / 1000 - (blockTime : ℚ) > cfg.maxTransactionAge)
    (hext : extractUSDCTransfer cfg.usdcMint tx = Option.some transfer)
    (hrecip : transfer.recipient = cfg.recipientWallet) :
    (transfer.amount = c.expectedAmount - 1/1000000 →
      (verifyPayment cfg st c).outcome =
        Except.ok ⟨true, Option.some false,
          Option.some ⟨c.signature, transfer.amount, transfer.sender, blockTime⟩⟩) ∧
    (transfer.amount = c.expectedAmount - 1/1000000 - 1/1000000 →
      (verifyPayment cfg st c).outcome =
        Except.error (createInsufficientAmountError c.expectedAmount transfer.amount)) := by
  constructor
  · intro heq
    have hnlt : ¬ transfer.amount < c.expectedAmount - (1000000:ℚ)⁻¹ := by
      rw [heq]
      norm_num
    rw [verifyPayment_outcome_eq]
    unfold verifyPaymentTry
    simp [hvalid, hmiss, hfetch, hbt, hbz, hext, hrecip, hnlt, hage]
  · intro heq
    have hlt : transfer.amount < c.expectedAmount - (1000000:ℚ)⁻¹ := by
      rw [heq]
      have h0 : (0:ℚ) < 1/1000000 := by norm_num
      have h1 : ((1000000:ℚ))⁻¹ = 1/1000000 := by norm_num
      rw [h1]
      linarith
    rw [verifyPayment_outcome_eq]
    unfold verifyPaymentTry
    simp [hvalid, hmiss, hfetch, hbt, hbz, hext, hlt, hage]

/-- Transaction transferring 0.049998 USDC, one micro-USDC below the
tolerance boundary for a 0.05 USDC requirement. -/
def underTwoTxFix : ChainTx :=
  ⟨Option.some 3601,
   Option.some ⟨[⟨0, "USDCmint", "RecipientWallet", 0⟩],
                [⟨0, "USDCmint", "RecipientWallet", 49998/1000000⟩]⟩⟩

/-- Call requiring 0.05 USDC against a 0.049998 USDC transfer. -/
def underTwoCallFix : CallInput :=
  ⟨sigFix, 5/100, "analyzeMarket", Option.none, 0,
   fun _ => RpcAttemptResult.success (Option.some underTwoTxFix)⟩

/-- Witness for C6: at `expectedAmount = 0.05`, a 0.049999 transfer passes
while a 0.049998 transfer fails with `INSUFFICIENT_AMOUNT`, its details
carrying expected 0.05, actual 0.049998 and shortfall 0.000002. -/
theorem C6_amount_tolerance_boundary_witness :
    (verifyPayment cfgFix (initState ["e1"]) underCallFix).outcome =
      Except.ok ⟨true, Option.some false,
        Option.some ⟨sigFix, 49999/1000000, "unknown", 3601⟩⟩ ∧
    (verifyPayment cfgFix (initState ["e1"]) underTwoCallFix).outcome =
      Except.error ⟨PaymentErrorCode.INSUFFICIENT_AMOUNT,
        "Insufficient payment amount",
        ErrDetails.insufficientDetails (5/100) (49998/1000000) (2/1000000)⟩ := by
  constructor
  · have h := (C6_amount_tolerance_boundary cfgFix (initState ["e1"]) underCallFix
      underTxFix 3601 ⟨49999/1000000, "RecipientWallet", "unknown"⟩
      (by decide) (by decide) (by decide) (by decide) (by decide) (by decide)
      (by decide) (by decide)).1 (by decide)
    rw [h]
    decide
  · have h := (C6_amount_tolerance_boundary cfgFix (initState ["e1"]) underTwoCallFix
      underTwoTxFix 3601 ⟨49998/1000000, "RecipientWallet", "unknown"⟩
      (by decide) (by decide) (by decide) (by decide) (by decide) (by decide)
      (by decide) (by decide)).2 (by decide)
    rw [h]
    decide

/-- C7: for every fetched transaction with a present block timestamp
(nonzero, since the source's `if (!blockTime)` treats 0 as absent), one
whose age is exactly `maxTransactionAge` passes the age check (the call
never fails with `EXPIRED_PAYMENT`), and one whose age exceeds
`maxTransactionAge` fails with `EXPIRED_PAYMENT`. -/
theorem C7_age_boundary (cfg : Config) (st : ServiceState) (c : CallInput)
    (tx : ChainTx) (blockTime : ℤ)
    (hvalid : isValidSignature c.signature = true)
    (hmiss : cacheGetEntry st.cache c.signature c.now = Option.none)
    (hfetch : (verifyTransactionWithRetry c.signature c.env cfg.retryAttempts st.rpc).1 =
      Except.ok tx)
    (hbt : tx.blockTime = Option.some blockTime)
    (hbz : blockTime ≠ 0) :
    (c.now / 1000 - (blockTime : ℚ) = cfg.maxTransactionAge →
      ∀ e, (verifyPayment cfg st c).outcome = Except.error e →
        e.code ≠ PaymentErrorCode.EXPIRED_PAYMENT) ∧
    (c.now / 1000 - (blockTime : ℚ) > cfg.maxTransactionAge →
      (verifyPayment cfg st c).outcome =
        Except.error (createExpiredPaymentError (c.now / 1000 - (blockTime : ℚ))
          cfg.maxTransactionAge)) := by
  constructor
  · intro heq e he hcode
    have hage : ¬ c.now / 1000 - (blockTime : ℚ) > cfg.maxTransactionAge := by
      rw [heq]
      exact lt_irrefl _
    rw [verifyPayment_outcome_eq] at he
    unfold verifyPaymentTry at he
    dsimp only at he
    simp only [hvalid, if_true, hmiss, hfetch, hbt, hbz, if_neg, if_false] at he
    repeat' split at he
    all_goals simp_all [noBlockTimeError, wrongTokenError,
      createInsufficientAmountError, createWrongRecipientError, createExpiredPaymentError,
      createTransactionNotFoundError]
    all_goals rw [← he] at hcode
    all_goals simp_all
  · intro hgt
    rw [verifyPayment_outcome_eq]
    unfold verifyPaymentTry
    simp [hvalid, hmiss, hfetch, hbt, hbz, hgt]

/-- Transaction with (nonzero) block time 1000 s and a valid one-USDC
transfer, used for the age-boundary witness. -/
def agedTxFix : ChainTx :=
  ⟨Option.some 1000,
   Option.some ⟨[⟨0, "USDCmint", "RecipientWallet", 0⟩],
                [⟨0, "USDCmint", "RecipientWallet", 1⟩]⟩⟩

/-- Call made exactly 300 seconds after `agedTxFix`. -/
def boundaryCallFix : CallInput :=
  ⟨sigFix, 5/100, "analyzeMarket", Option.none, 1300000,
   fun _ => RpcAttemptResult.success (Option.some agedTxFix)⟩

/-- Call made 301 seconds after `agedTxFix`. -/
def lateCallFix : CallInput :=
  ⟨sigFix, 5/100, "analyzeMarket", Option.none, 1301000,
   fun _ => RpcAttemptResult.success (Option.some agedTxFix)⟩

/-- Witness for C7: an age of exactly 300 s verifies successfully, an age
of 301 s fails with `EXPIRED_PAYMENT` (details: age 301, max 300). -/
theorem C7_age_boundary_witness :
    (verifyPayment cfgFix (initState ["e1"]) boundaryCallFix).outcome =
      Except.ok ⟨true, Option.some false,
        Option.some ⟨sigFix, 1, "unknown", 1000⟩⟩ ∧
    (∀ e, (verifyPayment cfgFix (initState ["e1"]) boundaryCallFix).outcome =
        Except.error e → e.code ≠ PaymentErrorCode.EXPIRED_PAYMENT) ∧
    (verifyPayment cfgFix (initState ["e1"]) lateCallFix).outcome =
      Except.error ⟨PaymentErrorCode.EXPIRED_PAYMENT,
        "Payment transaction is too old", ErrDetails.expiredDetails 301 300⟩ := by
  refine ⟨by decide, (C7_age_boundary cfgFix (initState ["e1"]) boundaryCallFix
    agedTxFix 1000 (by decide) (by decide) (by decide) (by decide) (by decide)).1
    (by decide), ?_⟩
  have h := (C7_age_boundary cfgFix (initState ["e1"]) lateCallFix
    agedTxFix 1000 (by decide) (by decide) (by decide) (by decide) (by decide)).2
    (by decide)
  rw [h]
  decide

/-- Monitor state in which no amount has ever been accumulated and no
recorded event carries an error code. -/
def MonitorZeroAmount (mon : MonitorState) : Prop :=
  mon.metrics.totalAmount = 0 ∧ ∀ e ∈ mon.recentEvents, e.errorCode = Option.none

/-- `recordVerification` called without amount and error code (as every
call site in `verifyPayment` does) preserves `MonitorZeroAmount`. -/
theorem recordVerification_zero (mon : MonitorState) (ts : ℚ) (success : Bool)
    (duration : ℚ) (fromCache : Bool) (h : MonitorZeroAmount mon) :
    MonitorZeroAmount
      (recordVerification mon ts success duration fromCache Option.none Option.none) := by
  obtain ⟨h1, h2⟩ := h
  constructor
  · unfold recordVerification updateCalculatedMetrics
    dsimp only
    split_ifs <;> simp_all
  · intro e he
    unfold recordVerification at he
    dsimp only at he
    have hevs : e ∈ mon.recentEvents ++
        [⟨ts, success, duration, fromCache, Option.none, Option.none⟩] := by
      by_cases hlen : 1000 <
          (mon.recentEvents ++
            [(⟨ts, success, duration, fromCache, Option.none, Option.none⟩ :
              VerificationEvent)]).length
      · simp only [hlen, if_true] at he
        exact List.drop_subset _ _ he
      · simp only [hlen, if_false] at he
        exact he
    rcases List.mem_append.mp hevs with hmem | hmem
    · exact h2 e hmem
    · simp at hmem
      rw [hmem]

/-- The `try` block leaves the monitor untouched or records exactly one
successful verification with no amount and no error code. -/
theorem verifyPaymentTry_monitor_shape (cfg : Config) (st : ServiceState) (c : CallInput) :
    (verifyPaymentTry cfg st c).2.1.monitor = st.monitor ∨
    ∃ fromCache, (verifyPaymentTry cfg st c).2.1.monitor =
      recordVerification st.monitor c.now true 0 fromCache Option.none Option.none := by
  unfold verifyPaymentTry
  dsimp only
  repeat' split
  all_goals first
    | (left ; rfl)
    | (right ; exact ⟨_, rfl⟩)

/-- One `verifyPayment` call preserves `MonitorZeroAmount`: neither its
success paths nor its catch branch ever pass an amount or error code. -/
theorem verifyPayment_monitor_preserved (cfg : Config) (st : ServiceState) (c : CallInput)
    (h : MonitorZeroAmount st.monitor) :
    MonitorZeroAmount (verifyPayment cfg st c).state.monitor := by
  have hTry := verifyPaymentTry_monitor_shape cfg st c
  rcases hE : verifyPaymentTry cfg st c with ⟨out, s1, n⟩
  rw [hE] at hTry
  have hs1 : MonitorZeroAmount s1.monitor := by
    rcases hTry with hm | ⟨fc, hm⟩
    · rw [show (out, s1, n).2.1 = s1 from rfl] at hm
      rw [hm]
      exact h
    · rw [show (out, s1, n).2.1 = s1 from rfl] at hm
      rw [hm]
      exact recordVerification_zero _ _ _ _ _ h
  unfold verifyPayment
  rw [hE]
  cases out with
  | ok r => exact hs1
  | error e => exact recordVerification_zero _ _ _ _ _ hs1

/-- Events without error codes produce an empty error breakdown. -/
theorem breakdown_empty (evs : List VerificationEvent)
    (h : ∀ e ∈ evs, e.errorCode = Option.none) : getErrorBreakdown evs = [] := by
  have key : ∀ acc, List.foldl
      (fun acc e =>
        match e.errorCode with
        | Option.some code =>
          if e.success then acc else alSet acc code ((alGet acc code).getD 0 + 1)
        | Option.none => acc) acc evs = acc := by
    induction evs with
    | nil => intro acc; rfl
    | cons e rest ih =>
      intro acc
      have he : e.errorCode = Option.none := h e (List.mem_cons_self e rest)
      have hrest : ∀ x ∈ rest, x.errorCode = Option.none := by
        intro x hx
        exact h x (List.mem_cons_of_mem e hx)
      simp only [List.foldl_cons, he]
      exact (by
        have := ih hrest
        exact this acc)
  exact key []

/-- C10: after every sequence of `verifyPayment` calls from a fresh
service, the monitor's cumulative `totalAmount` is still 0 and the error
breakdown is empty, because `verifyPayment` never passes the amount or the
error code to `recordVerification`. -/
theorem C10_monitor_totalAmount_zero (cfg : Config) (endpoints : List String)
    (calls : List CallInput) :
    (runCalls cfg (initState endpoints) calls).monitor.metrics.totalAmount = 0 ∧
    getErrorBreakdown (runCalls cfg (initState endpoints) calls).monitor.recentEvents = [] := by
  have key : ∀ (cs : List CallInput) (st : ServiceState), MonitorZeroAmount st.monitor →
      MonitorZeroAmount (runCalls cfg st cs).monitor := by
    intro cs
    induction cs with
    | nil => intro st h; exact h
    | cons c rest ih =>
      intro st h
      exact ih _ (verifyPayment_monitor_preserved cfg st c h)
  have h0 : MonitorZeroAmount (initState endpoints).monitor := by
    constructor
    · rfl
    · intro e he
      simp [initState] at he
  obtain ⟨h1, h2⟩ := key calls (initState endpoints) h0
  exact ⟨h1, breakdown_empty _ h2⟩

/-- A `verifyPayment` outcome that accepted the reference freshly
(`valid = true`, `cached = false`). -/
def isFreshOk : Except PaymentError VerificationResult → Bool
  | Except.ok r => r.cached == Option.some false
  | Except.error _ => false

theorem cacheGet_none_of_alGet_none (cache : List (String × CacheItem))
    (sig : String) (now : ℚ) (h : alGet cache sig = Option.none) :
    cacheGetEntry cache sig now = Option.none ∧ cacheGetMap cache sig now = cache := by
  constructor
  · unfold cacheGetEntry
    rw [h]
  · unfold cacheGetMap
    rw [h]

theorem cacheGet_live (cache : List (String × CacheItem)) (sig : String) (now : ℚ)
    (item : CacheItem) (h : alGet cache sig = Option.some item)
    (hlive : ¬ now > item.expiresAt) :
    cacheGetEntry cache sig now = Option.some item.entry ∧
    cacheGetMap cache sig now = cache := by
  constructor
  · unfold cacheGetEntry
    rw [h]
    simp [hlive]
  · unfold cacheGetMap
    rw [h]
    simp [hlive]

/-- A live same-tool cache hit returns the cached success and writes
nothing to the cache. -/
theorem verifyPayment_hit_same_full (cfg : Config) (st : ServiceState) (c : CallInput)
    (entry : CacheEntry)
    (hvalid : isValidSignature c.signature = true)
    (hhit : cacheGetEntry st.cache c.signature c.now = Option.some entry)
    (htool : entry.toolName = c.toolName) :
    (verifyPayment cfg st c).outcome =
      Except.ok ⟨true, Option.some true, Option.none⟩ ∧
    (verifyPayment cfg st c).state.cache = cacheGetMap st.cache c.signature c.now := by
  unfold verifyPayment verifyPaymentTry
  simp [hvalid, hhit, htool]

/-- A live cache hit under a different tool throws `REPLAY_ATTACK` carrying
the originally bound tool name, and writes nothing to the cache. -/
theorem verifyPayment_hit_diff_full (cfg : Config) (st : ServiceState) (c : CallInput)
    (entry : CacheEntry)
    (hvalid : isValidSignature c.signature = true)
    (hhit : cacheGetEntry st.cache c.signature c.now = Option.some entry)
    (htool : entry.toolName ≠ c.toolName) :
    (verifyPayment cfg st c).outcome =
      Except.error (createReplayAttackError c.signature entry.toolName) ∧
    (verifyPayment cfg st c).state.cache = cacheGetMap st.cache c.signature c.now := by
  unfold verifyPayment verifyPaymentTry
  simp [hvalid, hhit, htool]

theorem verifyPaymentTry_error_cache (cfg : Config) (st : ServiceState) (c : CallInput)
    (e : PaymentError) (s1 : ServiceState) (n : ℕ)
    (hvalid : isValidSignature c.signature = true)
    (h : verifyPaymentTry cfg st c = (Except.error e, s1, n)) :
    s1.cache = cacheGetMap st.cache c.signature c.now := by
  unfold verifyPaymentTry at h
  dsimp only at h
  repeat' split at h
  all_goals simp_all
  all_goals rw [← h.2.1]

theorem verifyPayment_error_cache (cfg : Config) (st : ServiceState) (c : CallInput)
    (e : PaymentError)
    (hvalid : isValidSignature c.signature = true)
    (h : (verifyPayment cfg st c).outcome = Except.error e) :
    (verifyPayment cfg st c).state.cache = cacheGetMap st.cache c.signature c.now := by
  rcases hE : verifyPaymentTry cfg st c with ⟨out, s1, n⟩
  unfold verifyPayment at h ⊢
  rw [hE] at h ⊢
  cases out with
  | ok r => simp at h
  | error e' =>
    dsimp
    exact verifyPaymentTry_error_cache cfg st c e' s1 n hvalid hE

theorem verifyPayment_ok_state (cfg : Config) (st : ServiceState) (c : CallInput)
    (r : VerificationResult)
    (h : (verifyPayment cfg st c).outcome = Except.ok r) :
    (verifyPayment cfg st c).state = (verifyPaymentTry cfg st c).2.1 ∧
    verifyPaymentTry cfg st c =
      (Except.ok r, (verifyPaymentTry cfg st c).2.1, (verifyPaymentTry cfg st c).2.2) := by
  rcases hE : verifyPaymentTry cfg st c with ⟨out, s1, n⟩
  unfold verifyPayment at h ⊢
  rw [hE] at h ⊢
  cases out with
  | ok r' =>
    simp at h
    subst h
    exact ⟨rfl, rfl⟩
  | error e => simp at h

/-- On a cache miss the call either throws or accepts freshly. -/
theorem verifyPayment_miss_cases (cfg : Config) (st : ServiceState) (c : CallInput)
    (hvalid : isValidSignature c.signature = true)
    (hmiss : cacheGetEntry st.cache c.signature c.now = Option.none) :
    (∃ e, (verifyPayment cfg st c).outcome = Except.error e) ∨
    (∃ r, (verifyPayment cfg st c).outcome = Except.ok r ∧
      r.cached = Option.some false) := by
  rw [verifyPayment_outcome_eq]
  unfold verifyPaymentTry
  dsimp only
  simp only [hvalid, if_true, hmiss]
  repeat' split
  all_goals first
    | exact Or.inl ⟨_, rfl⟩
    | exact Or.inr ⟨_, rfl, rfl⟩

theorem runTrace_mem (cfg : Config) :
    ∀ (calls : List CallInput) (st : ServiceState),
      ∀ x ∈ runTrace cfg st calls,
        x.2.2 = (verifyPayment cfg x.1 x.2.1).outcome ∧ x.2.1 ∈ calls
  | [], st => by simp [runTrace]
  | c :: rest, st => by
    intro x hx
    rw [runTrace] at hx
    rcases List.mem_cons.mp hx with hx | hx
    · subst hx
      exact ⟨rfl, List.mem_cons_self _ _⟩
    · obtain ⟨h1, h2⟩ := runTrace_mem cfg rest _ x hx
      exact ⟨h1, List.mem_cons_of_mem _ h2⟩

theorem two_mem_le_countP {α : Type} (p : α → Bool) :
    ∀ (l : List α) (a b : α), a ∈ l → b ∈ l → a ≠ b → p a = true → p b = true →
      2 ≤ l.countP p
  | [], a, b, ha, _, _, _, _ => absurd ha (List.not_mem_nil a)
  | x :: rest, a, b, ha, hb, hne, hpa, hpb => by
    rw [List.countP_cons]
    rcases List.mem_cons.mp ha with ha1 | ha1
    · rcases List.mem_cons.mp hb with hb1 | hb1
      · exact absurd (ha1.trans hb1.symm) hne
      · have hbrest : 0 < rest.countP p := List.countP_pos_iff.mpr ⟨b, hb1, hpb⟩
        have hx : p x = true := ha1 ▸ hpa
        rw [hx]
        simp only [if_true]
        omega
    · rcases List.mem_cons.mp hb with hb1 | hb1
      · have harest : 0 < rest.countP p := List.countP_pos_iff.mpr ⟨a, ha1, hpa⟩
        have hx : p x = true := hb1 ▸ hpb
        rw [hx]
        simp only [if_true]
        omega
      · have h2 := two_mem_le_countP p rest a b ha1 hb1 hne hpa hpb
        split <;> omega

/-- Core induction for the at-most-one-binding invariant: along a sequence
of calls for one reference whose times all lie in one TTL window, a state
with no binding yields at most one fresh acceptance, and a state with a
live binding yields none. -/
theorem runTrace_fresh_bound (cfg : Config) (s : String) (t0 : ℚ)
    (hvalid : isValidSignature s = true) :
    ∀ (calls : List CallInput) (st : ServiceState),
      (∀ c ∈ calls, c.signature = s) →
      (∀ c ∈ calls, t0 ≤ c.now ∧ c.now ≤ t0 + cfg.ttl * 1000) →
      ((alGet st.cache s = Option.none →
        (runTrace cfg st calls).countP (fun x => isFreshOk x.2.2) ≤ 1) ∧
       ((∃ item, alGet st.cache s = Option.some item ∧
           t0 + cfg.ttl * 1000 ≤ item.expiresAt) →
        (runTrace cfg st calls).countP (fun x => isFreshOk x.2.2) = 0)) := by
  intro calls
  induction calls with
  | nil =>
    intro st _ _
    constructor <;> intro _ <;> simp [runTrace]
  | cons c rest ih =>
    intro st hsig hwin
    have hcs : c.signature = s := hsig c (List.mem_cons_self _ _)
    have hcw := hwin c (List.mem_cons_self _ _)
    have hsig2 : ∀ x ∈ rest, x.signature = s := fun x hx => hsig x (List.mem_cons_of_mem _ hx)
    have hwin2 : ∀ x ∈ rest, t0 ≤ x.now ∧ x.now ≤ t0 + cfg.ttl * 1000 :=
      fun x hx => hwin x (List.mem_cons_of_mem _ hx)
    have hcvalid : isValidSignature c.signature = true := by
      rw [hcs]
      exact hvalid
    have hT : (runTrace cfg st (c :: rest)) =
        (st, c, (verifyPayment cfg st c).outcome) ::
        runTrace cfg (verifyPayment cfg st c).state rest := by
      rw [runTrace]
    constructor
    · intro hnone
      obtain ⟨hent, hmap⟩ := cacheGet_none_of_alGet_none st.cache c.signature c.now
        (hcs ▸ hnone)
      rcases verifyPayment_miss_cases cfg st c hcvalid hent with ⟨e, herr⟩ | ⟨r, hok, hfr⟩
      · have hcache := verifyPayment_error_cache cfg st c e hcvalid herr
        have hnone2 : alGet (verifyPayment cfg st c).state.cache s = Option.none := by
          rw [hcache, hmap, ← hcs]
          exact hcs ▸ hnone
        have hrest := (ih (verifyPayment cfg st c).state hsig2 hwin2).1 hnone2
        rw [hT, List.countP_cons]
        have hno : isFreshOk (st, c, (verifyPayment cfg st c).outcome).2.2 = false := by
          dsimp
          rw [herr]
          rfl
        rw [hno]
        simp
        omega
      · obtain ⟨hstate, hTryEq⟩ := verifyPayment_ok_state cfg st c r hok
        obtain ⟨tx, transfer, _, _, _, hcache⟩ :=
          verifyPaymentTry_fresh cfg st c r (verifyPaymentTry cfg st c).2.1
            (verifyPaymentTry cfg st c).2.2 hTryEq hfr
        have hlive : alGet (verifyPayment cfg st c).state.cache s =
            Option.some ⟨⟨c.toolName, transfer.amount, c.now, true, c.params⟩,
              c.now + cfg.ttl * 1000⟩ := by
          rw [hstate, hcache, cacheSet, ← hcs, alGet_alSet]
          simp
        have hrest := (ih (verifyPayment cfg st c).state hsig2 hwin2).2
          ⟨_, hlive, by
            dsimp
            have := hcw.1
            linarith⟩
        rw [hT, List.countP_cons, hrest]
        have hyes : isFreshOk (st, c, (verifyPayment cfg st c).outcome).2.2 = true := by
          dsimp
          rw [hok]
          simp [isFreshOk, hfr]
        rw [hyes]
        simp
    · intro hsome
      obtain ⟨item, hitem, hexp⟩ := hsome
      have hlive : ¬ c.now > item.expiresAt := by
        have := hcw.2
        simp only [gt_iff_lt, not_lt]
        linarith
      obtain ⟨hent, hmap⟩ := cacheGet_live st.cache c.signature c.now item
        (hcs ▸ hitem) hlive
      have hsame :
          (verifyPayment cfg st c).state.cache = st.cache ∧
          isFreshOk (verifyPayment cfg st c).outcome = false := by
        by_cases htool : item.entry.toolName = c.toolName
        · obtain ⟨ho, hc⟩ := verifyPayment_hit_same_full cfg st c item.entry hcvalid hent htool
          refine ⟨by rw [hc, hmap], ?_⟩
          rw [ho]
          rfl
        · obtain ⟨ho, hc⟩ := verifyPayment_hit_diff_full cfg st c item.entry hcvalid hent htool
          refine ⟨by rw [hc, hmap], ?_⟩
          rw [ho]
          rfl
      have hrest := (ih (verifyPayment cfg st c).state hsig2 hwin2).2
        ⟨item, by rw [hsame.1]; exact hitem, hexp⟩
      rw [hT, List.countP_cons, hrest, hsame.2]
      simp

/-- C2 (amended): for every sequence of `verifyPayment` calls sharing one
valid reference whose call times lie within one cache-TTL window, at most
one call is accepted with `cached = false` (hence at most one toolId is
ever bound), and every call that finds an unexpired cache entry bound to a
different toolId fails with `REPLAY_ATTACK` whose details carry the
originally bound tool name as `originalTool`. -/
theorem C2_at_most_one_binding (cfg : Config) (endpoints : List String)
    (s : String) (t0 : ℚ) (calls : List CallInput)
    (hvalid : isValidSignature s = true)
    (hsig : ∀ c ∈ calls, c.signature = s)
    (hwin : ∀ c ∈ calls, t0 ≤ c.now ∧ c.now ≤ t0 + cfg.ttl * 1000) :
    ((runTrace cfg (initState endpoints) calls).countP
        (fun x => isFreshOk x.2.2) ≤ 1) ∧
    (∀ x ∈ runTrace cfg (initState endpoints) calls,
      ∀ y ∈ runTrace cfg (initState endpoints) calls,
        isFreshOk x.2.2 = true → isFreshOk y.2.2 = true →
          x.2.1.toolName = y.2.1.toolName) ∧
    (∀ x ∈ runTrace cfg (initState endpoints) calls,
      ∀ item, alGet x.1.cache s = Option.some item →
        ¬ x.2.1.now > item.expiresAt →
        item.entry.toolName ≠ x.2.1.toolName →
        x.2.2 = Except.error (createReplayAttackError s item.entry.toolName)) := by
  have hcount := (runTrace_fresh_bound cfg s t0 hvalid calls
    (initState endpoints) hsig hwin).1 rfl
  refine ⟨hcount, ?_, ?_⟩
  · intro x hx y hy hfx hfy
    by_cases hxy : x = y
    · rw [hxy]
    · exact absurd (two_mem_le_countP (fun z => isFreshOk z.2.2) _ x y hx hy hxy hfx hfy)
        (by omega)
  · intro x hx item hitem hlive htool
    obtain ⟨hout, hmem⟩ := runTrace_mem cfg calls (initState endpoints) x hx
    have hxs : x.2.1.signature = s := hsig _ hmem
    have hv : isValidSignature x.2.1.signature = true := by
      rw [hxs]
      exact hvalid
    obtain ⟨hent, _⟩ := cacheGet_live x.1.cache x.2.1.signature x.2.1.now item
      (by rw [hxs]; exact hitem) hlive
    obtain ⟨ho, _⟩ := verifyPayment_hit_diff_full cfg x.1 x.2.1 item.entry hv hent htool
    rw [hout, ho, hxs]

/-- Reuse of the same reference 3 600 001 ms later, one millisecond past
the cache TTL. -/
def lateReuseCallFix : CallInput :=
  ⟨sigFix, 2/100, "getOdds", Option.none, 3600001, goodEnv⟩

/-- Counterexample to C2 as stated: once the cache entry expires (TTL 3600 s),
the same reference is accepted freshly a second time for a different tool,
so two distinct toolIds get bound across the sequence. -/
theorem C2_at_most_one_binding_counterexample :
    (runTrace cfgFix (initState ["e1"]) [callFix, lateReuseCallFix]).map
        (fun x => (x.2.1.toolName, isFreshOk x.2.2)) =
      [("analyzeMarket", true), ("getOdds", true)] ∧
    ("analyzeMarket" : String) ≠ "getOdds" := by decide

/-- Reuse of the same reference for a different tool inside the TTL window. -/
def reuseCallFix : CallInput :=
  ⟨sigFix, 2/100, "getOdds", Option.none, 5, goodEnv⟩

/-- Witness for the amended C2 at the spec scenario: `analyzeMarket` then a
`getOdds` replay of the same reference within the window. -/
theorem C2_at_most_one_binding_witness :
    ((runTrace cfgFix (initState ["e1"]) [callFix, reuseCallFix]).countP
        (fun x => isFreshOk x.2.2) ≤ 1) ∧
    (∀ x ∈ runTrace cfgFix (initState ["e1"]) [callFix, reuseCallFix],
      ∀ y ∈ runTrace cfgFix (initState ["e1"]) [callFix, reuseCallFix],
        isFreshOk x.2.2 = true → isFreshOk y.2.2 = true →
          x.2.1.toolName = y.2.1.toolName) ∧
    (∀ x ∈ runTrace cfgFix (initState ["e1"]) [callFix, reuseCallFix],
      ∀ item, alGet x.1.cache sigFix = Option.some item →
        ¬ x.2.1.now > item.expiresAt →
        item.entry.toolName ≠ x.2.1.toolName →
        x.2.2 = Except.error (createReplayAttackError sigFix item.entry.toolName)) :=
  C2_at_most_one_binding cfgFix ["e1"] sigFix 0 [callFix, reuseCallFix]
    (by decide) (by decide) (by decide)

theorem healthGet_alSet (health : List (String × Bool)) (k e : String) (v : Bool) :
    healthGet (alSet health k v) e = if e = k then v else healthGet health e := by
  unfold healthGet
  rw [alGet_alSet]
  by_cases h : e = k <;> simp [h]

theorem scheduleStep_snd (st : RpcState) (res : RpcAttemptResult) :
    (scheduleStep st res).2 = res := by
  unfold scheduleStep
  cases res with
  | success tx => rfl
  | failure m =>
    dsimp only
    split <;> rfl

theorem scheduleStep_endpoints (st : RpcState) (res : RpcAttemptResult) :
    (scheduleStep st res).1.endpoints = st.endpoints := by
  unfold scheduleStep
  cases res with
  | success tx => rfl
  | failure m =>
    dsimp only
    split <;> rfl

/-- Round-robin phase invariant after `k` transient failures from a fresh
manager: cursor at `k mod n`, first `k` endpoints unhealthy, rest healthy. -/
def RpcPhase (eps : List String) (k : ℕ) (st : RpcState) : Prop :=
  st.endpoints = eps ∧ st.currentIndex = k % eps.length ∧
  ∀ i, i < eps.length → healthGet st.health (eps.getD i "") = decide (k ≤ i)

/-- Every endpoint of the manager is marked unhealthy. -/
def AllUnhealthy (st : RpcState) : Prop :=
  ∀ e ∈ st.endpoints, healthGet st.health e = false

/-- The `getConnection` loop returns immediately when the endpoint under
the cursor is healthy. -/
theorem getConnLoop_healthy_head (conns : List String) (health : List (String × Bool))
    (idx : ℕ) (hpos : 0 < conns.length)
    (hh : healthGet health (conns.getD idx "") = true) :
    getConnLoop conns health conns.length idx 0 =
      (conns.getD idx "", (idx + 1) % conns.length) := by
  obtain ⟨f, hf⟩ : ∃ f, conns.length = f + 1 := ⟨conns.length - 1, by omega⟩
  have hstep : getConnLoop conns health (f + 1) idx 0 =
      (conns.getD idx "", (idx + 1) % conns.length) := by
    unfold getConnLoop
    dsimp only
    rw [hh]
    simp
  conv_lhs => rw [hf]
  rw [hstep]

theorem rpcPhase_to_allUnhealthy (eps : List String) (k : ℕ) (st : RpcState)
    (hk : eps.length ≤ k) (hP : RpcPhase eps k st) :
    AllUnhealthy st ∧ st.endpoints = eps := by
  obtain ⟨he, _, hh⟩ := hP
  refine ⟨?_, he⟩
  intro e hme
  rw [he] at hme
  obtain ⟨i, hi, hei⟩ := List.getElem_of_mem hme
  have := hh i hi
  rw [List.getD_eq_getElem _ _ hi, hei] at this
  rw [this]
  simp
  omega

/-- One transiently failing scheduled call advances the phase: the endpoint
under the cursor is selected and marked unhealthy. -/
theorem scheduleStep_phase (eps : List String) (hnd : eps.Nodup) (k : ℕ)
    (hk : k < eps.length) (st : RpcState) (hP : RpcPhase eps k st) (msg : String)
    (htr : isTransientError msg = true) :
    RpcPhase eps (k + 1) (scheduleStep st (RpcAttemptResult.failure msg)).1 := by
  obtain ⟨he, hidx, hh⟩ := hP
  have hpos : 0 < eps.length := by omega
  have hsel : getConnection st = (eps.getD k "", (k + 1) % eps.length) := by
    unfold getConnection
    rw [he, hidx, Nat.mod_eq_of_lt hk]
    apply getConnLoop_healthy_head eps st.health k hpos
    rw [hh k hk]
    simp
  unfold scheduleStep
  rw [hsel]
  dsimp only
  rw [if_pos htr]
  refine ⟨he, rfl, ?_⟩
  intro i hi
  dsimp only
  rw [healthGet_alSet]
  by_cases hik : i = k
  · subst hik
    simp
  · have hne : eps.getD i "" ≠ eps.getD k "" := by
      rw [List.getD_eq_getElem _ _ hi, List.getD_eq_getElem _ _ hk]
      intro hcontra
      exact hik (hnd.getElem_inj_iff.mp hcontra)
    rw [if_neg hne, hh i hi]
    rw [decide_eq_decide]
    omega

theorem scheduleStep_preserves_allUnhealthy (st : RpcState) (msg : String)
    (h : AllUnhealthy st) :
    AllUnhealthy (scheduleStep st (RpcAttemptResult.failure msg)).1 := by
  intro e hme
  rw [scheduleStep_endpoints] at hme
  unfold scheduleStep
  dsimp only
  split
  · dsimp only
    rw [healthGet_alSet]
    by_cases hce : e = (getConnection st).1 <;> simp [hce, h e hme]
  · exact h e hme

/-- The retry loop under an all-transient-failure oracle: it terminates
with `createTransactionNotFoundError` (the stored `lastError` is unused)
and, given at least as many attempts as endpoints, leaves every endpoint
unhealthy. -/
theorem verifyTxRetryAux_rateLimited (sig : String) (env : ℕ → RpcAttemptResult)
    (eps : List String) (hnd : eps.Nodup)
    (henv : ∀ i, ∃ m, env i = RpcAttemptResult.failure m ∧ isTransientError m = true) :
    ∀ (fuel i k : ℕ) (st : RpcState) (calls : ℕ),
      (k < eps.length → RpcPhase eps k st) →
      (eps.length ≤ k → AllUnhealthy st ∧ st.endpoints = eps) →
      eps.length ≤ k + fuel →
      (verifyTxRetryAux sig env fuel i st calls).1 =
        Except.error (createTransactionNotFoundError sig) ∧
      AllUnhealthy (verifyTxRetryAux sig env fuel i st calls).2.1 ∧
      (verifyTxRetryAux sig env fuel i st calls).2.1.endpoints = eps := by
  intro fuel
  induction fuel with
  | zero =>
    intro i k st calls hP hA hcover
    have hk : eps.length ≤ k := by omega
    obtain ⟨hall, hend⟩ := hA hk
    exact ⟨rfl, hall, hend⟩
  | succ f ih =>
    intro i k st calls hP hA hcover
    obtain ⟨m, hm, htr⟩ := henv i
    have hsnd : (scheduleStep st (env i)).2 = env i := scheduleStep_snd st (env i)
    have hun : verifyTxRetryAux sig env (f + 1) i st calls =
        verifyTxRetryAux sig env f (i + 1) (scheduleStep st (env i)).1 (calls + 1) := by
      conv_lhs => unfold verifyTxRetryAux
      dsimp only
      rw [hsnd, hm]
    rw [hun]
    by_cases hk : k < eps.length
    · have hPk := hP hk
      have hP1 : RpcPhase eps (k + 1) (scheduleStep st (env i)).1 := by
        rw [hm]
        exact scheduleStep_phase eps hnd k hk st hPk m htr
      exact ih (i + 1) (k + 1) (scheduleStep st (env i)).1 (calls + 1)
        (fun h1 => hP1)
        (fun h1 => rpcPhase_to_allUnhealthy eps (k + 1) _ h1 hP1)
        (by omega)
    · have hkk : eps.length ≤ k := by omega
      obtain ⟨hall, hend⟩ := hA hkk
      have hall1 : AllUnhealthy (scheduleStep st (env i)).1 := by
        rw [hm]
        exact scheduleStep_preserves_allUnhealthy st m hall
      have hend1 : (scheduleStep st (env i)).1.endpoints = eps := by
        rw [scheduleStep_endpoints]
        exact hend
      exact ih (i + 1) (k + 1) (scheduleStep st (env i)).1 (calls + 1)
        (fun h1 => absurd h1 (by omega))
        (fun h1 => ⟨hall1, hend1⟩)
        (by omega)

theorem verifyPayment_fetch_error (cfg : Config) (st : ServiceState) (c : CallInput)
    (e : PaymentError)
    (hvalid : isValidSignature c.signature = true)
    (hmiss : cacheGetEntry st.cache c.signature c.now = Option.none)
    (hfetch : (verifyTransactionWithRetry c.signature c.env cfg.retryAttempts st.rpc).1 =
      Except.error e) :
    (verifyPayment cfg st c).outcome = Except.error e ∧
    (verifyPayment cfg st c).state.rpc =
      (verifyTransactionWithRetry c.signature c.env cfg.retryAttempts st.rpc).2.1 := by
  unfold verifyPayment verifyPaymentTry
  simp [hvalid, hmiss, hfetch]

/-- C1 (amended): if a syntactically valid, uncached reference is verified
while every RPC attempt fails with a transient (rate-limit) error for all
configured retry attempts, `verifyPayment` terminates and throws
`TRANSACTION_NOT_FOUND` — not `RPC_ERROR`, since `verifyTransactionWithRetry`
discards the caught errors and throws `createTransactionNotFoundError` on
exhaustion — and, starting from a fresh manager with distinct endpoints and
at least as many retry attempts as endpoints, every endpoint ends up marked
unhealthy in the health map. -/
theorem C1_rate_limited_exhaustion (cfg : Config) (st : ServiceState) (c : CallInput)
    (hvalid : isValidSignature c.signature = true)
    (hmiss : cacheGetEntry st.cache c.signature c.now = Option.none)
    (henv : ∀ i, ∃ m, c.env i = RpcAttemptResult.failure m ∧ isTransientError m = true)
    (hnd : st.rpc.endpoints.Nodup)
    (hpos : 0 < st.rpc.endpoints.length)
    (hidx : st.rpc.currentIndex = 0)
    (hhealthy : ∀ e ∈ st.rpc.endpoints, healthGet st.rpc.health e = true)
    (hretry : st.rpc.endpoints.length ≤ cfg.retryAttempts) :
    (verifyPayment cfg st c).outcome =
      Except.error (createTransactionNotFoundError c.signature) ∧
    ∀ e ∈ st.rpc.endpoints,
      healthGet (verifyPayment cfg st c).state.rpc.health e = false := by
  have hP0 : RpcPhase st.rpc.endpoints 0 st.rpc := by
    refine ⟨rfl, by rw [hidx]; exact (Nat.zero_mod _).symm, ?_⟩
    intro i hi
    have hmem : st.rpc.endpoints.getD i "" ∈ st.rpc.endpoints := by
      rw [List.getD_eq_getElem _ _ hi]
      exact List.getElem_mem hi
    rw [hhealthy _ hmem]
    simp
  have hmain := verifyTxRetryAux_rateLimited c.signature c.env st.rpc.endpoints hnd henv
    cfg.retryAttempts 0 0 st.rpc 0
    (fun _ => hP0)
    (fun h1 => absurd h1 (by omega))
    (by omega)
  have hfetch : (verifyTransactionWithRetry c.signature c.env cfg.retryAttempts st.rpc).1 =
      Except.error (createTransactionNotFoundError c.signature) := hmain.1
  obtain ⟨hout, hrpc⟩ := verifyPayment_fetch_error cfg st c _ hvalid hmiss hfetch
  refine ⟨hout, ?_⟩
  intro e hme
  rw [hrpc]
  exact hmain.2.1 e (by rw [hmain.2.2]; exact hme)

/-- A call whose every RPC attempt is rejected with a 429 rate-limit error. -/
def rateLimitedCallFix : CallInput :=
  ⟨sigFix, 5/100, "analyzeMarket", Option.none, 0,
   fun _ => RpcAttemptResult.failure "429 rate limit exceeded"⟩

/-- Counterexample to C1 as stated: with every attempt rate-limited, the
thrown error's kind is `TRANSACTION_NOT_FOUND`, which is not `RPC_ERROR`. -/
theorem C1_rate_limited_exhaustion_counterexample :
    (verifyPayment cfgFix (initState ["e1", "e2"]) rateLimitedCallFix).outcome =
      Except.error (createTransactionNotFoundError sigFix) ∧
    (createTransactionNotFoundError sigFix).code =
      PaymentErrorCode.TRANSACTION_NOT_FOUND ∧
    PaymentErrorCode.TRANSACTION_NOT_FOUND ≠ PaymentErrorCode.RPC_ERROR := by decide

/-- Witness for the amended C1: two endpoints, three rate-limited attempts;
the call throws `TRANSACTION_NOT_FOUND` and both endpoints end unhealthy. -/
theorem C1_rate_limited_exhaustion_witness :
    (verifyPayment cfgFix (initState ["e1", "e2"]) rateLimitedCallFix).outcome =
      Except.error (createTransactionNotFoundError sigFix) ∧
    ∀ e ∈ (initState ["e1", "e2"]).rpc.endpoints,
      healthGet (verifyPayment cfgFix (initState ["e1", "e2"])
        rateLimitedCallFix).state.rpc.health e = false := by
  have h := C1_rate_limited_exhaustion cfgFix (initState ["e1", "e2"]) rateLimitedCallFix
    (by decide) (by decide)
    (fun i => ⟨"429 rate limit exceeded", rfl, by decide⟩)
    (by decide) (by decide) rfl (by decide) (by decide)
  exact h
